import Mathlib

/-!
Verification of the Nodewood CLI Stripe reconciliation engine
(`src/lib/stripe.js`): a shallow embedding of the catalog data model,
the diff/plan algorithm (`calculateDifferences` and its helpers), the
change counting contract (`countDifferences`), the apply-phase payload
translation and progress accounting, and the tax-section save/load
round trip of the catalog loader (`writeLocalConfig` / `getLocalConfig`).

JavaScript values are modelled by the inductive type `Value` (JSON
values plus `undefined`); entities (products, prices, tax rates,
coupons) are JavaScript objects, modelled as association lists of
string keys to values in insertion order, which is exactly the order
`Object.keys` reports.  Lodash `isEqual` is modelled by the structural
equality `isEqual` below (entities occurring in catalogs are built by
the loader / fetcher with a fixed key order, so order-sensitive
structural equality on `vobj` coincides with the lodash notion on the
values the program actually compares).  The JavaScript strict equality
`===` used for id comparisons coincides with structural equality on
the primitive values (strings, null, undefined) that ids hold, so it
is modelled by `isEqual` as well.
-/

namespace Nodewood

/-- JavaScript values: `undefined`, `null`, booleans, numbers (the
catalog only holds integers), strings, arrays and objects.  Objects
are association lists in property insertion order. -/
inductive Value where
  | vundef : Value
  | vnull : Value
  | vbool : Bool → Value
  | vnum : Int → Value
  | vstr : String → Value
  | varr : List Value → Value
  | vobj : List (String × Value) → Value
deriving Repr

/-- An entity (product, price, tax rate or coupon): a JavaScript
object, i.e. an association list of fields in insertion order. -/
abbrev Entity := List (String × Value)

/-- Property read `e[k]`: the first binding of `k`, or `undefined`
when the key is absent (JavaScript objects have unique keys, so the
first binding is the binding). -/
def getKey (e : Entity) (k : String) : Value :=
  match e.find? (fun p => p.1 == k) with
  | some p => p.2
  | none => Value.vundef

/-- Object.keys: the property names in insertion order. -/
def keys (e : Entity) : List String := e.map Prod.fst

/-- JavaScript truthiness (NaN is not modelled; the catalog holds no
NaN). -/
def truthy : Value → Bool
  | Value.vundef => false
  | Value.vnull => false
  | Value.vbool b => b
  | Value.vnum n => !(n == 0)
  | Value.vstr s => !(s == "")
  | Value.varr _ => true
  | Value.vobj _ => true

mutual

/-- Lodash `isEqual`: deep structural equality on values. -/
def isEqual : Value → Value → Bool
  | Value.vundef, Value.vundef => true
  | Value.vnull, Value.vnull => true
  | Value.vbool a, Value.vbool b => a == b
  | Value.vnum a, Value.vnum b => a == b
  | Value.vstr a, Value.vstr b => a == b
  | Value.varr xs, Value.varr ys => isEqualList xs ys
  | Value.vobj xs, Value.vobj ys => isEqualObj xs ys
  | _, _ => false

/-- Elementwise `isEqual` on arrays. -/
def isEqualList : List Value → List Value → Bool
  | [], [] => true
  | x :: xs, y :: ys => isEqual x y && isEqualList xs ys
  | _, _ => false

/-- Fieldwise `isEqual` on objects (embedded objects are kept in
canonical construction order, see the file header). -/
def isEqualObj : List (String × Value) → List (String × Value) → Bool
  | [], [] => true
  | (k1, v1) :: xs, (k2, v2) :: ys => (k1 == k2) && isEqual v1 v2 && isEqualObj xs ys
  | _, _ => false

end

/-- Lodash `omit(e, k)`: the object without the field `k`. -/
def omitKey (e : Entity) (k : String) : Entity :=
  e.filter (fun p => !(p.1 == k))

/-- Lodash `isNil`: true on `null` and `undefined`. -/
def isNil : Value → Bool
  | Value.vnull => true
  | Value.vundef => true
  | _ => false

/-- The static mutability schema `ALLOWED_UPDATE_KEYS` of
`src/lib/stripe.js` lines 9-33: the fields that may be sent in an
update, per entity kind. -/
def ALLOWED_UPDATE_KEYS (entryName : String) : List String :=
  if entryName == "product" then ["active", "metadata", "name", "description"]
  else if entryName == "price" then ["active", "metadata", "nickname", "description"]
  else if entryName == "tax" then
    ["active", "metadata", "display_name", "description", "jurisdiction"]
  else if entryName == "coupon" then ["name", "metadata"]
  else []

/-- The id-match lookup used throughout the reconciler:
`last(entries.filter((e) => e.id === idv))` - the most recently listed
entry whose id equals `idv`, if any. -/
def lastMatch (entries : List Entity) (idv : Value) : Option Entity :=
  (entries.filter (fun e => isEqual (getKey e "id") idv)).getLast?

/-- getNewEntries (lines 337-339): every entry without a (truthy) id
is new. -/
def getNewEntries (entries : List Entity) : List Entity :=
  entries.filter (fun entry => !(truthy (getKey entry "id")))

/-- getNewCoupons (lines 352-356): a local coupon is new iff its id
appears nowhere in the remote coupon list (coupons may carry a
user-assigned id before creation). -/
def getNewCoupons (localCoupons remoteCoupons : List Entity) : List Entity :=
  let remoteIds := remoteCoupons.map (fun coupon => getKey coupon "id")
  localCoupons.filter (fun coupon =>
    !(remoteIds.any (fun i => isEqual i (getKey coupon "id"))))

/-- updateableEntries (lines 365-367): entries with a truthy id are
candidates for the update check. -/
def updateableEntries (entry : Entity) : Bool :=
  truthy (getKey entry "id")

/-- The set of field keys, in key order of the local entity, whose
local value differs (lodash isEqual) from the remote value - the
`differences` list of getUpdatedEntries line 389-390.  Only keys
present on the local entity are examined (`Object.keys(localEntry)`). -/
def entryDifferences (localEntry remoteEntry : Entity) : List String :=
  (keys localEntry).filter (fun key =>
    !(isEqual (getKey localEntry key) (getKey remoteEntry key)))

/-- getUpdatedEntries (lines 378-401): a local entry with a remote
counterpart is updated iff at least one differing local key is in the
mutability schema; entries with no remote counterpart are skipped
(with a drift warning, modelled by `driftWarnings`). -/
def getUpdatedEntries (localEntries remoteEntries : List Entity) (entryName : String) :
    List Entity :=
  localEntries.filter (fun localEntry =>
    match lastMatch remoteEntries (getKey localEntry "id") with
    | none => false
    | some remoteEntry =>
      decide (0 < ((entryDifferences localEntry remoteEntry).filter
        (fun key => (ALLOWED_UPDATE_KEYS entryName).contains key)).length))

/-- The drift warnings printed by getUpdatedEntries lines 382-386: one
per local entry whose id has no remote counterpart, reported with that
id. -/
def driftWarnings (localEntries remoteEntries : List Entity) : List Value :=
  (localEntries.filter (fun localEntry =>
    (lastMatch remoteEntries (getKey localEntry "id")).isNone)).map
    (fun localEntry => getKey localEntry "id")

/-- The immutable-field warnings printed by getUpdatedEntries lines
393-396: for each local entry with a remote counterpart, one warning
per differing key outside the mutability schema, reported as the pair
of the entry id and the key. -/
def immutableFieldWarnings (localEntries remoteEntries : List Entity) (entryName : String) :
    List (Value × String) :=
  localEntries.flatMap (fun localEntry =>
    match lastMatch remoteEntries (getKey localEntry "id") with
    | none => []
    | some remoteEntry =>
      ((entryDifferences localEntry remoteEntry).filter
        (fun key => !((ALLOWED_UPDATE_KEYS entryName).contains key))).map
        (fun key => (getKey localEntry "id", key)))

/-- getDeactivatedEntries (lines 414-420): a remote entry is planned
for deactivation iff it has no local counterpart at all, or its local
counterpart has a falsy `active` field. -/
def getDeactivatedEntries (localEntries remoteEntries : List Entity) : List Entity :=
  remoteEntries.filter (fun remote =>
    match lastMatch localEntries (getKey remote "id") with
    | none => true
    | some localEntry => !(truthy (getKey localEntry "active")))

/-- getDeletedCoupons (lines 432-438): a remote coupon is planned for
deletion iff it has no local counterpart at all (coupons have no
`active` flag). -/
def getDeletedCoupons (localCoupons remoteCoupons : List Entity) : List Entity :=
  remoteCoupons.filter (fun remote =>
    (lastMatch localCoupons (getKey remote "id")).isNone)

/-- A catalog: one entity list per kind (the shape produced by
getLocalConfig / getRemoteConfig). -/
structure Config where
  products : List Entity
  prices : List Entity
  taxes : List Entity
  coupons : List Entity

/-- One kind of the change set: the `new` / `updated` / `deactivated`
buckets (the removed bucket is called `deactivated` for every kind in
the source, including coupons, where it means deletion). -/
structure KindChanges where
  new : List Entity
  updated : List Entity
  deactivated : List Entity

/-- The change set across the four kinds. -/
structure ChangeSet where
  products : KindChanges
  prices : KindChanges
  taxes : KindChanges
  coupons : KindChanges

/-- calculateDifferences (lines 295-326), the diff of the two
catalogs: per kind, new / updated / deactivated entries, where the
update check receives only entries with a truthy id (products
additionally with their `prices` field omitted). -/
def calculateDifferences (localConfig remoteConfig : Config) : ChangeSet :=
  let localProductsForUpdateCheck :=
    (localConfig.products.filter updateableEntries).map (fun product => omitKey product "prices")
  let updateablePrices := localConfig.prices.filter updateableEntries
  let updateableTaxes := localConfig.taxes.filter updateableEntries
  let updateableCoupons := localConfig.coupons.filter updateableEntries
  { products :=
      { new := getNewEntries localConfig.products
        updated := getUpdatedEntries localProductsForUpdateCheck remoteConfig.products "product"
        deactivated := getDeactivatedEntries localConfig.products remoteConfig.products }
    prices :=
      { new := getNewEntries localConfig.prices
        updated := getUpdatedEntries updateablePrices remoteConfig.prices "price"
        deactivated := getDeactivatedEntries localConfig.prices remoteConfig.prices }
    taxes :=
      { new := getNewEntries localConfig.taxes
        updated := getUpdatedEntries updateableTaxes remoteConfig.taxes "tax"
        deactivated := getDeactivatedEntries localConfig.taxes remoteConfig.taxes }
    coupons :=
      { new := getNewCoupons localConfig.coupons remoteConfig.coupons
        updated := getUpdatedEntries updateableCoupons remoteConfig.coupons "coupon"
        deactivated := getDeletedCoupons localConfig.coupons remoteConfig.coupons } }

/-- One changed field as reported by getEntityDifferences: the key,
the remote (before) value and the local (after) value. -/
structure FieldDifference where
  key : String
  fromVal : Value
  toVal : Value
deriving Repr

/-- getEntityDifferences (lines 521-536).  With a remote counterpart
it returns one FieldDifference per local key whose value differs.
Without one, `remoteEntity` is `undefined` and the first body
execution of the `forEach` throws a TypeError reading
`remoteEntity[key]` (modelled by `Except.error`); when the entity has
no keys at all the loop body never runs and the empty list is
returned. -/
def getEntityDifferences (entity : Entity) (remoteEntities : List Entity) :
    Except String (List FieldDifference) :=
  match lastMatch remoteEntities (getKey entity "id") with
  | some remoteEntity =>
    Except.ok ((keys entity).filterMap (fun key =>
      if isEqual (getKey entity key) (getKey remoteEntity key) then none
      else some ⟨key, getKey remoteEntity key, getKey entity key⟩))
  | none =>
    if entity.isEmpty then Except.ok []
    else Except.error "TypeError: cannot read properties of undefined"

/-- convertStripeProduct (lines 545-547): the create payload of a
product is the local product without its `prices` field.  No
null/undefined stripping happens for products. -/
def convertStripeProduct (product : Entity) : Entity :=
  omitKey product "prices"

/-- convertStripePrice (lines 557-570): the create payload of a
price.  No null/undefined stripping happens for prices. -/
def convertStripePrice (price : Entity) (productId : Value) : Entity :=
  [("product", productId),
   ("nickname", getKey price "nickname"),
   ("active", getKey price "active"),
   ("unit_amount", getKey price "unit_amount"),
   ("currency", getKey price "currency"),
   ("metadata", getKey price "metadata"),
   ("recurring", Value.vobj
     [("interval", getKey price "interval"),
      ("interval_count", getKey price "interval_count")])]

/-- convertStripeTax (lines 579-581): the identity. -/
def convertStripeTax (tax : Entity) : Entity := tax

/-- convertStripeCoupon (lines 592-594): `omitBy(coupon, isNil)` -
every field whose value is null or undefined is stripped from the
coupon create payload. -/
def convertStripeCoupon (coupon : Entity) : Entity :=
  coupon.filter (fun p => !(isNil p.2))

/-- The update payload for a product (applyChanges line 647):
`omit(product, id)` - the whole local product record except its id,
whatever fields it carries. -/
def productUpdatePayload (product : Entity) : Entity :=
  omitKey product "id"

/-- The update payload for a price (applyChanges lines 665-669).  The
source reads `price.nickanme` (a misspelling, verbatim from line 666),
a property that does not exist, so the `nickname` field is sent with
value `undefined`. -/
def priceUpdatePayload (price : Entity) : Entity :=
  [("nickname", getKey price "nickanme"),
   ("active", getKey price "active"),
   ("metadata", getKey price "metadata")]

/-- The update payload for a tax rate (applyChanges lines 687-692). -/
def taxUpdatePayload (tax : Entity) : Entity :=
  [("active", getKey tax "active"),
   ("display_name", getKey tax "display_name"),
   ("metadata", getKey tax "metadata"),
   ("description", getKey tax "description")]

/-- The update payload for a coupon (applyChanges lines 710-713). -/
def couponUpdatePayload (coupon : Entity) : Entity :=
  [("name", getKey coupon "name"),
   ("metadata", getKey coupon "metadata")]

/-- The JavaScript `.length` read performed by countDifferences line
607 on `product.prices`: defined on arrays and strings; on any other
value the read either throws (undefined/null receiver) or poisons the
sum (`undefined` length gives NaN), both modelled as `none`. -/
def jsLength : Value → Option Nat
  | Value.varr xs => some xs.length
  | Value.vstr s => some s.length
  | _ => none

/-- The sum of the three bucket lengths of one kind, as computed by
the `reduce` over `Object.keys` in countDifferences (the key sets of
all four kind records are the same three keys, so the reduce over
`differences.products` keys used for the price buckets on line 608-609
sums exactly the three price buckets). -/
def kindTotal (c : KindChanges) : Nat :=
  c.new.length + c.updated.length + c.deactivated.length

/-- countDifferences (lines 603-617): new + updated + deactivated
across the four kinds, plus the length of the nested `prices` of each
new product. -/
def countDifferences (differences : ChangeSet) : Option Nat := do
  let nested ← differences.products.new.mapM (fun product => jsLength (getKey product "prices"))
  return kindTotal differences.products + nested.sum + kindTotal differences.prices
    + kindTotal differences.taxes + kindTotal differences.coupons

/-- The length of the nested `prices` array of a product, 0 when the
field is not an array (total companion of `jsLength`, used to state
sums; the apply loop requires the field to be an array anyway). -/
def nestedPriceCount (product : Entity) : Nat :=
  match getKey product "prices" with
  | Value.varr xs => xs.length
  | _ => 0

/-- The number of progress-bar increments performed by one full run of
applyChanges (lines 624-724), derived loop by loop.  The new-product
loop (lines 634-643) calls `increment` exactly twice per new product -
once after the product create (line 636) and once after dispatching
the nested price creations (line 642); the nested `forEach` (lines
638-640) contains no increment, so the nested price creations are
never counted, whatever their number.  Every other loop calls
`increment` exactly once per list element. -/
def applyIncrements (cs : ChangeSet) : Nat :=
  2 * cs.products.new.length
    + cs.products.updated.length + cs.products.deactivated.length
    + kindTotal cs.prices + kindTotal cs.taxes + kindTotal cs.coupons

/-- The number of remote create/update/delete calls issued by one full
run of applyChanges: one create per new product plus one create per
nested price (the forEach on lines 638-640 fires one
`stripe.prices.create` per nested price), and one call per element of
every other bucket. -/
def applyRemoteCalls (cs : ChangeSet) : Nat :=
  (cs.products.new.map (fun product => 1 + nestedPriceCount product)).sum
    + cs.products.updated.length + cs.products.deactivated.length
    + kindTotal cs.prices + kindTotal cs.taxes + kindTotal cs.coupons

/-- Association-list read, modelling JavaScript property lookup
`m[k]` on an object with unique keys: `some` of the bound value, or
`none` for `undefined`. -/
def alistGet {α : Type} (m : List (String × α)) (k : String) : Option α :=
  (m.find? (fun p => p.1 == k)).map Prod.snd

/-- Association-list write, modelling JavaScript property assignment
`m[k] = v`: overwrite in place when the key exists, append otherwise
(property insertion order). -/
def alistSet {α : Type} (m : List (String × α)) (k : String) (v : α) : List (String × α) :=
  if m.any (fun p => p.1 == k) then
    m.map (fun p => if p.1 == k then (k, v) else p)
  else m ++ [(k, v)]

/-- Lodash `invert`: swap keys and values, later bindings overwriting
earlier ones.  Applied to the geography `countries` table (country
code to country name) it yields `keyedCountryNames` (name to code),
writeLocalConfig line 95. -/
def invert (m : List (String × String)) : List (String × String) :=
  m.foldl (fun acc p => alistSet acc p.2 p.1) []

/-- The object spread `\x7b jurisdiction: v, ...taxConfig \x7d` of
getLocalConfig lines 63-72: start from the one-field object and assign
each field of `taxConfig` in order (an existing key - in particular a
`jurisdiction` carried by `taxConfig` itself - is overwritten in
place, a new key is appended). -/
def objSpreadOnto (base : Entity) (extra : Entity) : Entity :=
  extra.foldl (fun acc p => alistSet acc p.1 p.2) base

/-- JavaScript `String.prototype.split(sep)` on the character list of
the string: `""` splits to `[""]`, and every occurrence of the
separator starts a new chunk. -/
def splitChars (sep : Char) : List Char → List (List Char)
  | [] => [[]]
  | c :: rest =>
    let r := splitChars sep rest
    if c == sep then [] :: r
    else
      match r with
      | [] => [[c]]
      | h :: t => (c :: h) :: t

/-- JavaScript `s.split(sep)` for a one-character separator (the
source splits on a comma, writeLocalConfig line 117). -/
def jsSplit (s : String) (sep : Char) : List String :=
  (splitChars sep s.toList).map (fun cs => String.mk cs)

/-- JavaScript `s.trim()`: strip whitespace from both ends. -/
def jsTrim (s : String) : String :=
  String.mk (((s.toList.dropWhile Char.isWhitespace).reverse.dropWhile
    Char.isWhitespace).reverse)

/-- Coercion of a property lookup into a template literal slot
(writeLocalConfig builds no templates, but getLocalConfig line 70
does): a missing binding renders as the string `undefined`. -/
def jsStr : Option String → String
  | some s => s
  | none => "undefined"

/-- The persisted shape of `app/config/stripe/taxes.json`: taxes
bucketed by country code, and by country then state code. -/
structure TaxesFile where
  countries : List (String × List Entity)
  states : List (String × List (String × List Entity))
deriving Repr

/-- One iteration of the tax re-bucketing loop of writeLocalConfig
(lines 116-131): split the jurisdiction label on commas and trim each
piece; a single piece is a country name (bucket under its code via
`keyedCountryNames`), two pieces are a state and a country name
(bucket under country code then state).  A failed
`keyedCountryNames` lookup yields the property key `undefined`
(JavaScript coerces the undefined index to that string).  A
jurisdiction that is not a string makes `.split` throw, modelled as
`none`. -/
def saveTaxesStep (keyedCountryNames : List (String × String)) (acc : TaxesFile)
    (tax : Entity) : Option TaxesFile :=
  match getKey tax "jurisdiction" with
  | Value.vstr s =>
    let jurisdiction := (jsSplit s ',').map jsTrim
    if jurisdiction.length == 1 then
      let country := jsStr (alistGet keyedCountryNames (jurisdiction.headD ""))
      some { acc with countries :=
              (alistSet acc.countries country
                ((alistGet acc.countries country).getD [] ++ [omitKey tax "jurisdiction"])) }
    else
      let state := jurisdiction.headD ""
      let country := jsStr (alistGet keyedCountryNames (jurisdiction.getD 1 ""))
      let countryStates := (alistGet acc.states country).getD []
      let stateList := (alistGet countryStates state).getD []
      some { acc with states :=
              (alistSet acc.states country
                (alistSet countryStates state (stateList ++ [omitKey tax "jurisdiction"]))) }
  | _ => none

/-- The tax section of writeLocalConfig (lines 114-138): fold the flat
tax list into the persisted country/state buckets, starting from the
empty file. -/
def writeTaxesFile (countries : List (String × String)) (taxes : List Entity) :
    Option TaxesFile :=
  taxes.foldlM (saveTaxesStep (invert countries)) ⟨[], []⟩

/-- The country part of the tax section of getLocalConfig (lines
62-67): each persisted tax gains a `jurisdiction` field holding the
country name looked up from its bucket code (`undefined` when the
code is not in the geography table). -/
def loadCountryTaxes (countries : List (String × String)) (file : TaxesFile) : List Entity :=
  file.countries.flatMap (fun ckTaxes =>
    ckTaxes.2.map (fun taxConfig =>
      objSpreadOnto
        [("jurisdiction",
          match alistGet countries ckTaxes.1 with
          | some name => Value.vstr name
          | none => Value.vundef)]
        taxConfig))

/-- The state part of the tax section of getLocalConfig (lines 67-74):
the jurisdiction label is the template `state, countryName` (a failed
country lookup renders as the string `undefined`). -/
def loadStateTaxes (countries : List (String × String)) (file : TaxesFile) : List Entity :=
  file.states.flatMap (fun ckStates =>
    ckStates.2.flatMap (fun skTaxes =>
      skTaxes.2.map (fun taxConfig =>
        objSpreadOnto
          [("jurisdiction",
            Value.vstr (skTaxes.1 ++ ", " ++ jsStr (alistGet countries ckStates.1)))]
          taxConfig)))

/-- The flat tax list produced by getLocalConfig lines 62-74: the
country-bucketed taxes followed by the state-bucketed taxes. -/
def loadTaxes (countries : List (String × String)) (file : TaxesFile) : List Entity :=
  loadCountryTaxes countries file ++ loadStateTaxes countries file

/-- The nested new price of the counting scenario: an id-less price of
1000 units. -/
def proPrice : Entity := [("id", Value.vnull), ("unit_amount", Value.vnum 1000)]

/-- The new product of the counting scenario: id-less, one nested
id-less price. -/
def proProduct : Entity :=
  [("id", Value.vnull), ("name", Value.vstr "Pro"), ("prices", Value.varr [Value.vobj proPrice])]

/-- The empty catalog. -/
def emptyConfig : Config := ⟨[], [], [], []⟩

/-- A local catalog holding exactly the scenario product. -/
def scenarioLocal : Config := ⟨[proProduct], [], [], []⟩

/-- A local product that matches its remote counterpart on every local
key. -/
def cLocalProduct : Entity := [("id", Value.vstr "prod_1"), ("name", Value.vstr "Pro")]

/-- A remote counterpart carrying a mutable field (`description`) that
the local product does not list at all. -/
def cRemoteProduct : Entity :=
  [("id", Value.vstr "prod_1"), ("name", Value.vstr "Pro"),
   ("description", Value.vstr "desc")]

/-- A local coupon with a user-assigned id that exists nowhere
remotely. -/
def cNewCoupon : Entity := [("id", Value.vstr "SUMMER")]

/-- A local product carrying a field outside the mutability schema
(`statement_descriptor`) and a null field (`description`). -/
def cUpdatedProduct : Entity :=
  [("id", Value.vstr "prod_1"), ("name", Value.vstr "Pro"),
   ("statement_descriptor", Value.vstr "NW"), ("description", Value.vnull)]

/-- A new product with zero nested prices. -/
def soloProduct : Entity :=
  [("id", Value.vnull), ("name", Value.vstr "Solo"), ("prices", Value.varr [])]

/-- A change set holding exactly one new product with zero nested
prices. -/
def soloChangeSet : ChangeSet :=
  ⟨⟨[soloProduct], [], []⟩, ⟨[], [], []⟩, ⟨[], [], []⟩, ⟨[], [], []⟩⟩

/-- A coupon with id c1. -/
def couponA : Entity := [("id", Value.vstr "c1")]

/-- A coupon with id c2. -/
def couponB : Entity := [("id", Value.vstr "c2")]

/-- A local catalog holding the two coupons in one order. -/
def configCouponsAB : Config := ⟨[], [], [], [couponA, couponB]⟩

/-- The same local catalog with its coupon list in the other order. -/
def configCouponsBA : Config := ⟨[], [], [], [couponB, couponA]⟩

/-- A one-entry geography table whose code and display name are both
US. -/
def usTable : List (String × String) := [("US", "US")]

/-- A flat tax rate under the state-comma-country jurisdiction label
CA, US. -/
def caTax : Entity :=
  [("jurisdiction", Value.vstr "CA, US"), ("display_name", Value.vstr "GST"),
   ("percentage", Value.vnum 5)]

/-- A local product that is present but inactive. -/
def wLocalProduct : Entity := [("id", Value.vstr "prod_1"), ("active", Value.vbool false)]

/-- The remote counterpart of the inactive local product. -/
def wRemoteProduct : Entity :=
  [("id", Value.vstr "prod_1"), ("active", Value.vbool true), ("name", Value.vstr "Pro")]

/-- A local catalog holding exactly the user-assigned-id coupon. -/
def configNewCoupon : Config := ⟨[], [], [], [cNewCoupon]⟩

lemma getLast?_some_mem {α : Type} {l : List α} {x : α} (h : l.getLast? = some x) :
    x ∈ l := by
  obtain ⟨hne, hx⟩ := List.mem_getLast?_eq_getLast (by simpa [Option.mem_def] using h)
  exact hx ▸ List.getLast_mem hne

lemma lastMatch_none_iff (entries : List Entity) (idv : Value) :
    lastMatch entries idv = none ↔ ∀ e ∈ entries, isEqual (getKey e "id") idv = false := by
  rw [lastMatch, List.getLast?_eq_none_iff, List.filter_eq_nil_iff]
  simp [Bool.not_eq_true]

lemma lastMatch_some (entries : List Entity) (idv : Value) (e : Entity)
    (h : lastMatch entries idv = some e) :
    e ∈ entries ∧ isEqual (getKey e "id") idv = true := by
  have := getLast?_some_mem h
  exact List.mem_filter.mp this

lemma lastMatch_isSome_of_mem (entries : List Entity) (idv : Value) (e : Entity)
    (he : e ∈ entries) (hmatch : isEqual (getKey e "id") idv = true) :
    ∃ e', lastMatch entries idv = some e' := by
  have hne : entries.filter (fun x => isEqual (getKey x "id") idv) ≠ [] := by
    intro hnil
    have := List.filter_eq_nil_iff.mp hnil e he
    exact this hmatch
  obtain ⟨e', he'⟩ := Option.isSome_iff_exists.mp (List.getLast?_isSome.mpr hne)
  exact ⟨e', he'⟩

lemma lastMatch_eq_of_mem_uniq (entries : List Entity) (idv : Value) (e : Entity)
    (he : e ∈ entries) (hmatch : isEqual (getKey e "id") idv = true)
    (huniq : ∀ e1 ∈ entries, ∀ e2 ∈ entries,
      isEqual (getKey e1 "id") idv = true → isEqual (getKey e2 "id") idv = true → e1 = e2) :
    lastMatch entries idv = some e := by
  obtain ⟨e', he'⟩ := lastMatch_isSome_of_mem entries idv e he hmatch
  obtain ⟨hmem', hmatch'⟩ := lastMatch_some entries idv e' he'
  rw [he', huniq e' hmem' e he hmatch' hmatch]


/-- C1 as stated is false: update detection only examines keys present
on the local entity.  Concretely, `description` is a mutable product
field per the schema and its value differs between `cLocalProduct`
(where the key is absent, so the read gives undefined) and
`cRemoteProduct` (where it is the string desc), the local product has
a matched remote counterpart, yet the diff classifies nothing as
updated - and no immutable-field warning is emitted either, because
the differing key is simply never seen. -/
theorem C1_counterexample :
    "description" ∈ ALLOWED_UPDATE_KEYS "product"
    ∧ isEqual (getKey cLocalProduct "description") (getKey cRemoteProduct "description") = false
    ∧ lastMatch [cRemoteProduct] (getKey cLocalProduct "id") = some cRemoteProduct
    ∧ getUpdatedEntries [cLocalProduct] [cRemoteProduct] "product" = []
    ∧ immutableFieldWarnings [cLocalProduct] [cRemoteProduct] "product" = [] := by
  refine ⟨by decide, rfl, rfl, rfl, rfl⟩

/-- C1 amended: for a local entity with a remote counterpart (the
last remote entry matching its id), the diff classifies it as updated
iff at least one field KEY PRESENT ON THE LOCAL ENTITY is in the
static mutability schema for its kind and differs by deep structural
inequality from the remote value; and every locally-present differing
key outside the mutable set produces an immutable-field warning,
whether or not the entity lands in the updated bucket. -/
theorem C1_updated_iff_mutable_local_field_differs
    (localEntries remoteEntries : List Entity) (entryName : String) (l r : Entity)
    (hl : l ∈ localEntries)
    (hm : lastMatch remoteEntries (getKey l "id") = some r) :
    (l ∈ getUpdatedEntries localEntries remoteEntries entryName ↔
      ∃ k ∈ keys l, k ∈ ALLOWED_UPDATE_KEYS entryName ∧
        isEqual (getKey l k) (getKey r k) = false)
    ∧ (∀ k ∈ keys l, isEqual (getKey l k) (getKey r k) = false →
        k ∉ ALLOWED_UPDATE_KEYS entryName →
        (getKey l "id", k) ∈ immutableFieldWarnings localEntries remoteEntries entryName) := by
  constructor
  · rw [getUpdatedEntries, List.mem_filter]
    simp only [hm, hl, true_and, decide_eq_true_eq]
    rw [List.length_pos]
    constructor
    · intro hne
      obtain ⟨k, hk⟩ := List.exists_mem_of_ne_nil _ hne
      obtain ⟨hk1, hk2⟩ := List.mem_filter.mp hk
      obtain ⟨hk3, hk4⟩ := List.mem_filter.mp hk1
      refine ⟨k, hk3, ?_, ?_⟩
      · simpa using hk2
      · simpa [Bool.not_eq_true'] using hk4
    · rintro ⟨k, hk, hallow, hdiff⟩
      refine List.ne_nil_of_mem (a := k) ?_
      refine List.mem_filter.mpr ⟨List.mem_filter.mpr ⟨hk, ?_⟩, ?_⟩
      · simp [hdiff]
      · simpa using hallow
  · intro k hk hdiff hnallow
    rw [immutableFieldWarnings, List.mem_flatMap]
    refine ⟨l, hl, ?_⟩
    rw [hm]
    refine List.mem_map.mpr ⟨k, ?_, rfl⟩
    refine List.mem_filter.mpr ⟨List.mem_filter.mpr ⟨hk, ?_⟩, ?_⟩
    · simp [hdiff]
    · simp [hnallow]

/-- C1 witness: the amended characterization applied to the concrete
inactive-product pair, where the mutable field `active` differs. -/
theorem C1_witness :
    (wLocalProduct ∈ getUpdatedEntries [wLocalProduct] [wRemoteProduct] "product" ↔
      ∃ k ∈ keys wLocalProduct, k ∈ ALLOWED_UPDATE_KEYS "product" ∧
        isEqual (getKey wLocalProduct k) (getKey wRemoteProduct k) = false)
    ∧ (∀ k ∈ keys wLocalProduct,
        isEqual (getKey wLocalProduct k) (getKey wRemoteProduct k) = false →
        k ∉ ALLOWED_UPDATE_KEYS "product" →
        (getKey wLocalProduct "id", k) ∈
          immutableFieldWarnings [wLocalProduct] [wRemoteProduct] "product") :=
  C1_updated_iff_mutable_local_field_differs [wLocalProduct] [wRemoteProduct] "product"
    wLocalProduct wRemoteProduct (List.mem_singleton.mpr rfl) rfl

/-- C2 as stated is false on its no-drift-warning part: a local
coupon with the user-assigned id SUMMER and no remote counterpart is
classified as new, but the update-detection pass over the
updateable coupons (exactly what calculateDifferences feeds it) still
emits the drift warning for it. -/
theorem C2_counterexample :
    (calculateDifferences configNewCoupon emptyConfig).coupons.new = [cNewCoupon]
    ∧ driftWarnings (configNewCoupon.coupons.filter updateableEntries) emptyConfig.coupons
        = [Value.vstr "SUMMER"] :=
  ⟨rfl, rfl⟩

/-- C2 amended: a local coupon whose id appears nowhere remotely is
classified as new by remote-id absence; however, when that id is set
(truthy) the update pass additionally emits the drift warning for it,
exactly as for a product.  A product with a set id and no remote
counterpart is never classified as new and triggers the drift
warning. -/
theorem C2_new_coupons_by_remote_absence
    (localCoupons remoteCoupons : List Entity) (c : Entity)
    (hc : c ∈ localCoupons)
    (habs : ∀ r ∈ remoteCoupons, isEqual (getKey r "id") (getKey c "id") = false)
    (lproducts rproducts : List Entity) (p : Entity)
    (hp : p ∈ lproducts) (hpid : truthy (getKey p "id") = true)
    (hpabs : ∀ r ∈ rproducts, isEqual (getKey r "id") (getKey p "id") = false) :
    c ∈ getNewCoupons localCoupons remoteCoupons
    ∧ (truthy (getKey c "id") = true →
        getKey c "id" ∈ driftWarnings (localCoupons.filter updateableEntries) remoteCoupons)
    ∧ p ∉ getNewEntries lproducts
    ∧ getKey p "id" ∈ driftWarnings (lproducts.filter updateableEntries) rproducts := by
  refine ⟨?_, ?_, ?_, ?_⟩
  · rw [getNewCoupons, List.mem_filter]
    refine ⟨hc, ?_⟩
    simp only [Bool.not_eq_true', List.any_eq_false]
    intro i hi
    obtain ⟨r, hr, hri⟩ := List.mem_map.mp hi
    subst hri
    simp [habs r hr]
  · intro hcid
    rw [driftWarnings]
    refine List.mem_map.mpr ⟨c, List.mem_filter.mpr ⟨List.mem_filter.mpr ⟨hc, ?_⟩, ?_⟩, rfl⟩
    · simpa [updateableEntries] using hcid
    · rw [Option.isNone_iff_eq_none, lastMatch_none_iff]
      exact habs
  · rw [getNewEntries, List.mem_filter]
    rintro ⟨-, hfalse⟩
    rw [hpid] at hfalse
    simp at hfalse
  · rw [driftWarnings]
    refine List.mem_map.mpr ⟨p, List.mem_filter.mpr ⟨List.mem_filter.mpr ⟨hp, ?_⟩, ?_⟩, rfl⟩
    · simpa [updateableEntries] using hpid
    · rw [Option.isNone_iff_eq_none, lastMatch_none_iff]
      exact hpabs

/-- C2 witness: the amended statement at the concrete SUMMER coupon
against an empty remote coupon list, with the prod_1 product against
an empty remote product list. -/
theorem C2_witness :
    cNewCoupon ∈ getNewCoupons [cNewCoupon] []
    ∧ (truthy (getKey cNewCoupon "id") = true →
        getKey cNewCoupon "id" ∈ driftWarnings ([cNewCoupon].filter updateableEntries) [])
    ∧ wLocalProduct ∉ getNewEntries [wLocalProduct]
    ∧ getKey wLocalProduct "id" ∈ driftWarnings ([wLocalProduct].filter updateableEntries) [] :=
  C2_new_coupons_by_remote_absence [cNewCoupon] [] cNewCoupon (List.mem_singleton.mpr rfl)
    (by intro r hr; simp at hr) [wLocalProduct] [] wLocalProduct (List.mem_singleton.mpr rfl)
    rfl (by intro r hr; simp at hr)

/-- C3: when local ids are unambiguous (any two local entries matching
the remote id are the same entry), a remote product/price/tax is in
the removed (deactivated) bucket iff every matching local entry - in
particular THE matching one if any - has a falsy `active` field
(vacuously, iff there is no matching local entry at all); a remote
coupon is in the removed (deleted) bucket iff no local coupon matches
its id, with no `active` consulted; and a remote entry whose matching
local counterpart has a truthy `active` is never in the removed
bucket. -/
theorem C3_removed_iff_no_active_local_counterpart
    (localEntries remoteEntries : List Entity) (r : Entity) (hr : r ∈ remoteEntries)
    (huniq : ∀ l1 ∈ localEntries, ∀ l2 ∈ localEntries,
      isEqual (getKey l1 "id") (getKey r "id") = true →
      isEqual (getKey l2 "id") (getKey r "id") = true → l1 = l2) :
    (r ∈ getDeactivatedEntries localEntries remoteEntries ↔
      ∀ l ∈ localEntries, isEqual (getKey l "id") (getKey r "id") = true →
        truthy (getKey l "active") = false)
    ∧ (∀ localCoupons : List Entity,
        r ∈ getDeletedCoupons localCoupons remoteEntries ↔
          ∀ l ∈ localCoupons, isEqual (getKey l "id") (getKey r "id") = false)
    ∧ (∀ l ∈ localEntries, isEqual (getKey l "id") (getKey r "id") = true →
        truthy (getKey l "active") = true →
        r ∉ getDeactivatedEntries localEntries remoteEntries) := by
  have hmain : r ∈ getDeactivatedEntries localEntries remoteEntries ↔
      ∀ l ∈ localEntries, isEqual (getKey l "id") (getKey r "id") = true →
        truthy (getKey l "active") = false := by
    rw [getDeactivatedEntries, List.mem_filter]
    simp only [hr, true_and]
    cases hLM : lastMatch localEntries (getKey r "id") with
    | none =>
      simp only []
      constructor
      · intro _ l hl hmatch
        exact absurd hmatch (by simp [(lastMatch_none_iff localEntries (getKey r "id")).mp hLM l hl])
      · intro _
        trivial
    | some l0 =>
      obtain ⟨hl0, hmatch0⟩ := lastMatch_some localEntries (getKey r "id") l0 hLM
      simp only [Bool.not_eq_true']
      constructor
      · intro hfalse l hl hmatch
        rw [huniq l hl l0 hl0 hmatch hmatch0]
        exact hfalse
      · intro hall
        exact hall l0 hl0 hmatch0
  refine ⟨hmain, ?_, ?_⟩
  · intro localCoupons
    rw [getDeletedCoupons, List.mem_filter]
    simp only [hr, true_and, Option.isNone_iff_eq_none]
    exact lastMatch_none_iff localCoupons (getKey r "id")
  · intro l hl hmatch hact hmem
    have := hmain.mp hmem l hl hmatch
    rw [hact] at this
    exact Bool.noConfusion this

/-- C3 witness: the concrete scenario of the spec - local prod_1 with
active false, remote prod_1 active - instantiating all three parts. -/
theorem C3_witness :
    (wRemoteProduct ∈ getDeactivatedEntries [wLocalProduct] [wRemoteProduct] ↔
      ∀ l ∈ [wLocalProduct], isEqual (getKey l "id") (getKey wRemoteProduct "id") = true →
        truthy (getKey l "active") = false)
    ∧ (∀ localCoupons : List Entity,
        wRemoteProduct ∈ getDeletedCoupons localCoupons [wRemoteProduct] ↔
          ∀ l ∈ localCoupons, isEqual (getKey l "id") (getKey wRemoteProduct "id") = false)
    ∧ (∀ l ∈ [wLocalProduct], isEqual (getKey l "id") (getKey wRemoteProduct "id") = true →
        truthy (getKey l "active") = true →
        wRemoteProduct ∉ getDeactivatedEntries [wLocalProduct] [wRemoteProduct]) :=
  C3_removed_iff_no_active_local_counterpart [wLocalProduct] [wRemoteProduct] wRemoteProduct
    (List.mem_singleton.mpr rfl)
    (by
      intro l1 h1 l2 h2 _ _
      rw [List.mem_singleton.mp h1, List.mem_singleton.mp h2])

lemma mapM_jsLength (l : List Entity)
    (h : ∀ p ∈ l, ∃ xs, getKey p "prices" = Value.varr xs) :
    l.mapM (fun p => jsLength (getKey p "prices")) = some (l.map nestedPriceCount) := by
  induction l with
  | nil => rfl
  | cons p t ih =>
    obtain ⟨xs, hxs⟩ := h p (List.mem_cons_self p t)
    have ht := ih (fun q hq => h q (List.mem_cons_of_mem p hq))
    rw [List.mapM_cons, ht]
    simp [hxs, jsLength, nestedPriceCount]

/-- C4: for every change set whose new products carry an array
`prices` field (as every change set computed by the diff from a loaded
catalog does), countDifferences is the sum of the three bucket lengths
over all four kinds plus the number of nested prices inside each new
product; and on the concrete scenario - one id-less product with one
nested id-less price diffed against the empty catalog - the product
lands in the new bucket and the count is 2. -/
theorem C4_count_changes
    (cs : ChangeSet)
    (h : ∀ p ∈ cs.products.new, ∃ xs, getKey p "prices" = Value.varr xs) :
    countDifferences cs = some (kindTotal cs.products
        + (cs.products.new.map nestedPriceCount).sum
        + kindTotal cs.prices + kindTotal cs.taxes + kindTotal cs.coupons)
    ∧ (calculateDifferences scenarioLocal emptyConfig).products.new = [proProduct]
    ∧ countDifferences (calculateDifferences scenarioLocal emptyConfig) = some 2 := by
  refine ⟨?_, rfl, rfl⟩
  rw [countDifferences, mapM_jsLength cs.products.new h]
  rfl

/-- C4 witness: the counting contract applied to the change set the
diff computes for the concrete scenario. -/
theorem C4_witness :
    countDifferences (calculateDifferences scenarioLocal emptyConfig)
        = some (kindTotal (calculateDifferences scenarioLocal emptyConfig).products
          + ((calculateDifferences scenarioLocal emptyConfig).products.new.map
              nestedPriceCount).sum
          + kindTotal (calculateDifferences scenarioLocal emptyConfig).prices
          + kindTotal (calculateDifferences scenarioLocal emptyConfig).taxes
          + kindTotal (calculateDifferences scenarioLocal emptyConfig).coupons)
    ∧ (calculateDifferences scenarioLocal emptyConfig).products.new = [proProduct]
    ∧ countDifferences (calculateDifferences scenarioLocal emptyConfig) = some 2 :=
  C4_count_changes (calculateDifferences scenarioLocal emptyConfig)
    (by
      intro p hp
      have hp' : p ∈ [proProduct] := hp
      rw [List.mem_singleton.mp hp']
      exact ⟨[Value.vobj proPrice], rfl⟩)

/-- C5 as stated is false on two counts.  The product update payload
is the whole local record minus id, so the non-schema field
`statement_descriptor` of `cUpdatedProduct` is sent in its update
payload; and create payloads are not null-stripped for products
(nor prices, nor taxes): the null `description` survives in the
product create payload. -/
theorem C5_counterexample :
    ("statement_descriptor", Value.vstr "NW") ∈ productUpdatePayload cUpdatedProduct
    ∧ "statement_descriptor" ∉ ALLOWED_UPDATE_KEYS "product"
    ∧ "statement_descriptor" ≠ "id"
    ∧ ("description", Value.vnull) ∈ convertStripeProduct cUpdatedProduct := by
  refine ⟨?_, by decide, by decide, ?_⟩
  · rw [show productUpdatePayload cUpdatedProduct =
      [("name", Value.vstr "Pro"), ("statement_descriptor", Value.vstr "NW"),
       ("description", Value.vnull)] from rfl]
    exact List.mem_cons_of_mem _ (List.mem_cons_self _ _)
  · rw [show convertStripeProduct cUpdatedProduct = cUpdatedProduct from rfl, cUpdatedProduct]
    exact List.mem_cons_of_mem _ (List.mem_cons_of_mem _ (List.mem_cons_of_mem _
      (List.mem_cons_self _ _)))

/-- C5 amended: the price, tax and coupon update payloads contain only
mutability-schema fields - in particular an updated price sends
exactly the keys nickname, active, metadata and never currency - and
null/undefined stripping applies to the coupon create payload, whose
every sent field is non-nil (so a null amount_off or percent_off key
is never sent).  The product update payload, by contrast, is the whole
local record minus id, and product/price/tax create payloads are not
null-stripped. -/
theorem C5_payload_fields (price tax coupon c : Entity) :
    keys (priceUpdatePayload price) = ["nickname", "active", "metadata"]
    ∧ (∀ k ∈ keys (priceUpdatePayload price), k ∈ ALLOWED_UPDATE_KEYS "price")
    ∧ "currency" ∉ keys (priceUpdatePayload price)
    ∧ (∀ k ∈ keys (taxUpdatePayload tax), k ∈ ALLOWED_UPDATE_KEYS "tax")
    ∧ (∀ k ∈ keys (couponUpdatePayload coupon), k ∈ ALLOWED_UPDATE_KEYS "coupon")
    ∧ (∀ p ∈ convertStripeCoupon c, isNil p.2 = false) := by
  refine ⟨rfl, ?_, ?_, ?_, ?_, ?_⟩
  · intro k hk
    have hk' : k ∈ ["nickname", "active", "metadata"] := hk
    fin_cases hk' <;> decide
  · rw [show keys (priceUpdatePayload price) = ["nickname", "active", "metadata"] from rfl]
    decide
  · intro k hk
    have hk' : k ∈ ["active", "display_name", "metadata", "description"] := hk
    fin_cases hk' <;> decide
  · intro k hk
    have hk' : k ∈ ["name", "metadata"] := hk
    fin_cases hk' <;> decide
  · intro p hp
    have := (List.mem_filter.mp hp).2
    simpa [Bool.not_eq_true'] using this

/-- C5 witness: the payload facts at the concrete updated product and
coupon entities. -/
theorem C5_witness :
    keys (priceUpdatePayload cUpdatedProduct) = ["nickname", "active", "metadata"]
    ∧ (∀ k ∈ keys (priceUpdatePayload cUpdatedProduct), k ∈ ALLOWED_UPDATE_KEYS "price")
    ∧ "currency" ∉ keys (priceUpdatePayload cUpdatedProduct)
    ∧ (∀ k ∈ keys (taxUpdatePayload caTax), k ∈ ALLOWED_UPDATE_KEYS "tax")
    ∧ (∀ k ∈ keys (couponUpdatePayload cNewCoupon), k ∈ ALLOWED_UPDATE_KEYS "coupon")
    ∧ (∀ p ∈ convertStripeCoupon cUpdatedProduct, isNil p.2 = false) :=
  C5_payload_fields cUpdatedProduct caTax cNewCoupon cUpdatedProduct

/-- C6: the failing input for the progress accounting.  For the change
set holding exactly one new product with zero nested prices,
applyChanges performs two progress increments (lines 636 and 642 both
run once) but issues exactly one remote call, and countDifferences -
which sizes the progress bar - reports 1.  The spec requires one
increment per remote call, totalling countDifferences; the code
increments twice per new product regardless of its nested price count
(the nested price creations in the unawaited forEach are never counted
at all). -/
theorem C6_progress_divergence :
    applyIncrements soloChangeSet = 2
    ∧ applyRemoteCalls soloChangeSet = 1
    ∧ countDifferences soloChangeSet = some 1 :=
  ⟨rfl, rfl, rfl⟩

lemma lastMatch_isNone_of_perm {l l' : List Entity} (h : l.Perm l') (idv : Value) :
    (lastMatch l idv).isNone = (lastMatch l' idv).isNone := by
  rw [Bool.eq_iff_iff, Option.isNone_iff_eq_none, Option.isNone_iff_eq_none,
    lastMatch_none_iff, lastMatch_none_iff]
  constructor
  · intro hall e he
    exact hall e (h.mem_iff.mpr he)
  · intro hall e he
    exact hall e (h.mem_iff.mp he)

/-- C7 as stated is false on its order-insensitivity part: the two
local catalogs hold the same entities (their coupon lists are
permutations of each other, all other lists equal), yet the diff
against the empty remote catalog returns different ChangeSets - the
new-coupon bucket comes out in the corresponding input order. -/
theorem C7_counterexample :
    configCouponsAB.coupons.Perm configCouponsBA.coupons
    ∧ configCouponsAB.products = configCouponsBA.products
    ∧ configCouponsAB.prices = configCouponsBA.prices
    ∧ configCouponsAB.taxes = configCouponsBA.taxes
    ∧ calculateDifferences configCouponsAB emptyConfig
        ≠ calculateDifferences configCouponsBA emptyConfig := by
  refine ⟨List.Perm.swap couponB couponA [], rfl, rfl, rfl, ?_⟩
  intro h
  have h2 : Value.vstr "c1" = Value.vstr "c2" :=
    congrArg (fun cs : ChangeSet => getKey (cs.coupons.new.headD []) "id") h
  injection h2 with h3
  exact absurd h3 (by decide)

/-- C7 amended: diff is a pure function, so identical catalogs give
identical ChangeSets; the output does not depend on anything beyond
its input lists, but it does follow their internal order.  Permuting
the local coupon list leaves the product/price/tax buckets and the
deleted-coupon bucket unchanged and permutes the new-coupon and
updated-coupon buckets correspondingly - so byte-identical output is
guaranteed only for identically ordered inputs (e.g. the id-sorted
order the loader and fetcher produce). -/
theorem C7_diff_order_dependence
    (lc lc' rc : Config)
    (hp : lc.products = lc'.products) (hpr : lc.prices = lc'.prices)
    (ht : lc.taxes = lc'.taxes) (hcoup : lc.coupons.Perm lc'.coupons) :
    (calculateDifferences lc rc).products = (calculateDifferences lc' rc).products
    ∧ (calculateDifferences lc rc).prices = (calculateDifferences lc' rc).prices
    ∧ (calculateDifferences lc rc).taxes = (calculateDifferences lc' rc).taxes
    ∧ ((calculateDifferences lc rc).coupons.new).Perm
        ((calculateDifferences lc' rc).coupons.new)
    ∧ ((calculateDifferences lc rc).coupons.updated).Perm
        ((calculateDifferences lc' rc).coupons.updated)
    ∧ (calculateDifferences lc rc).coupons.deactivated
        = (calculateDifferences lc' rc).coupons.deactivated := by
  refine ⟨?_, ?_, ?_, ?_, ?_, ?_⟩
  · simp only [calculateDifferences, hp]
  · simp only [calculateDifferences, hpr]
  · simp only [calculateDifferences, ht]
  · exact hcoup.filter _
  · exact (hcoup.filter updateableEntries).filter _
  · exact List.filter_congr (fun r _ => lastMatch_isNone_of_perm hcoup (getKey r "id"))

/-- C7 witness: the order-dependence statement applied to the two
concrete coupon orderings against the empty remote catalog. -/
theorem C7_witness :
    (calculateDifferences configCouponsAB emptyConfig).products
        = (calculateDifferences configCouponsBA emptyConfig).products
    ∧ (calculateDifferences configCouponsAB emptyConfig).prices
        = (calculateDifferences configCouponsBA emptyConfig).prices
    ∧ (calculateDifferences configCouponsAB emptyConfig).taxes
        = (calculateDifferences configCouponsBA emptyConfig).taxes
    ∧ ((calculateDifferences configCouponsAB emptyConfig).coupons.new).Perm
        ((calculateDifferences configCouponsBA emptyConfig).coupons.new)
    ∧ ((calculateDifferences configCouponsAB emptyConfig).coupons.updated).Perm
        ((calculateDifferences configCouponsBA emptyConfig).coupons.updated)
    ∧ (calculateDifferences configCouponsAB emptyConfig).coupons.deactivated
        = (calculateDifferences configCouponsBA emptyConfig).coupons.deactivated :=
  C7_diff_order_dependence configCouponsAB configCouponsBA emptyConfig rfl rfl rfl
    (List.Perm.swap couponB couponA [])

lemma alistSet_append {α : Type} (m : List (String × α)) (k : String) (v : α)
    (h : ∀ q ∈ m, q.1 ≠ k) : alistSet m k v = m ++ [(k, v)] := by
  rw [alistSet, if_neg]
  intro hany
  obtain ⟨q, hq, hqk⟩ := List.any_eq_true.mp hany
  exact h q hq (by simpa using hqk)

lemma objSpreadOnto_no_overlap (extra : Entity)
    (h2 : (extra.map Prod.fst).Nodup) :
    ∀ base : Entity, (∀ p ∈ extra, ∀ q ∈ base, p.1 ≠ q.1) →
      objSpreadOnto base extra = base ++ extra := by
  induction extra with
  | nil => intro base _; simp [objSpreadOnto]
  | cons kv t ih =>
    intro base h1
    have hset : alistSet base kv.1 kv.2 = base ++ [kv] :=
      alistSet_append base kv.1 kv.2
        (fun q hq => Ne.symm (h1 kv (List.mem_cons_self kv t) q hq))
    have hstep : objSpreadOnto base (kv :: t) = objSpreadOnto (base ++ [kv]) t := by
      rw [objSpreadOnto, List.foldl_cons, hset, objSpreadOnto]
    rw [hstep, ih (List.nodup_cons.mp h2).2 (base ++ [kv]) ?_, List.append_assoc,
      List.singleton_append]
    intro p hp q hq
    rcases List.mem_append.mp hq with hql | hqr
    · exact h1 p (List.mem_cons_of_mem kv hp) q hql
    · rw [List.mem_singleton.mp hqr]
      intro hcontra
      exact (List.nodup_cons.mp h2).1 (hcontra ▸ List.mem_map_of_mem Prod.fst hp)

lemma omitKey_jurisdiction (v : Value) (rest : Entity)
    (hjur : ∀ p ∈ rest, p.1 ≠ "jurisdiction") :
    omitKey (("jurisdiction", v) :: rest) "jurisdiction" = rest := by
  rw [omitKey, List.filter_cons]
  simp only [beq_self_eq_true, Bool.not_true, Bool.false_eq_true, if_false]
  exact List.filter_eq_self.mpr (fun p hp => by simp [hjur p hp])

/-- C8: a flat tax entity in loader-normal form (jurisdiction label
first, remaining fields with distinct keys and no jurisdiction key of
their own) whose label has the state-comma-country shape round-trips
through the save re-bucketing and a subsequent load to the identical
flat entity, provided the geography table resolves the country name
back to a code and that code back to the same name (the two lookup
directions the loader and saver use). -/
theorem C8_tax_save_load_roundtrip
    (ctable : List (String × String)) (state name code : String) (rest : Entity)
    (hsplit : (jsSplit (state ++ ", " ++ name) ',').map jsTrim = [state, name])
    (hinv : alistGet (invert ctable) name = some code)
    (hback : alistGet ctable code = some name)
    (hjur : ∀ p ∈ rest, p.1 ≠ "jurisdiction")
    (hnodup : (rest.map Prod.fst).Nodup) :
    (writeTaxesFile ctable
        [("jurisdiction", Value.vstr (state ++ ", " ++ name)) :: rest]).map
        (loadTaxes ctable)
      = some [("jurisdiction", Value.vstr (state ++ ", " ++ name)) :: rest] := by
  have hget : getKey (("jurisdiction", Value.vstr (state ++ ", " ++ name)) :: rest)
      "jurisdiction" = Value.vstr (state ++ ", " ++ name) := rfl
  have hstep : saveTaxesStep (invert ctable) ⟨[], []⟩
      (("jurisdiction", Value.vstr (state ++ ", " ++ name)) :: rest)
      = some ⟨[], [(code, [(state, [rest])])]⟩ := by
    rw [saveTaxesStep, hget]
    simp only [hsplit]
    rw [omitKey_jurisdiction _ _ hjur]
    simp only [List.headD_cons, List.getD_cons_succ, List.getD_cons_zero, hinv, jsStr]
    simp [alistGet, alistSet]
  have hwrite : writeTaxesFile ctable
      [("jurisdiction", Value.vstr (state ++ ", " ++ name)) :: rest]
      = some ⟨[], [(code, [(state, [rest])])]⟩ := by
    rw [writeTaxesFile]
    simp [List.foldlM, hstep]
  rw [hwrite, Option.map_some']
  rw [loadTaxes, loadCountryTaxes, loadStateTaxes]
  simp only [List.flatMap_nil, List.flatMap_cons, List.flatMap_nil, List.map_cons,
    List.map_nil, List.append_nil, List.nil_append, hback, jsStr]
  rw [objSpreadOnto_no_overlap rest hnodup _
    (fun p hp q hq => by
      rw [List.mem_singleton.mp hq]
      exact hjur p hp)]
  rfl

/-- C8 witness: the round trip at the concrete CA, US tax rate with
the one-entry geography table. -/
theorem C8_witness :
    (writeTaxesFile usTable [caTax]).map (loadTaxes usTable) = some [caTax] :=
  C8_tax_save_load_roundtrip usTable "CA" "US" "US"
    [("display_name", Value.vstr "GST"), ("percentage", Value.vnum 5)]
    (by decide) (by decide) (by decide) (by decide) (by decide)

/-- C9: getEntityDifferences is total under the precondition that some
remote entity matches the id of the given entity - it then returns a
difference list in which every record carries the local value as the
after-value, an after-value structurally unequal to the before-value,
and a key of the local entity; without the precondition the undefined
field access is reachable (the error branch fires on a concrete
input). -/
theorem C9_entity_differences_safety
    (entity : Entity) (remoteEntities : List Entity)
    (h : ∃ r ∈ remoteEntities, isEqual (getKey r "id") (getKey entity "id") = true) :
    (∃ ds, getEntityDifferences entity remoteEntities = Except.ok ds
      ∧ ∀ d ∈ ds, d.toVal = getKey entity d.key
          ∧ isEqual d.toVal d.fromVal = false
          ∧ d.key ∈ keys entity)
    ∧ (∃ (e' : Entity) (rs' : List Entity),
        getEntityDifferences e' rs' =
          Except.error "TypeError: cannot read properties of undefined") := by
  constructor
  · obtain ⟨r, hr, hmatch⟩ := h
    obtain ⟨r', hr'⟩ :=
      lastMatch_isSome_of_mem remoteEntities (getKey entity "id") r hr hmatch
    refine ⟨(keys entity).filterMap (fun key =>
      if isEqual (getKey entity key) (getKey r' key) then none
      else some ⟨key, getKey r' key, getKey entity key⟩), ?_, ?_⟩
    · rw [getEntityDifferences, hr']
    · intro d hd
      obtain ⟨k, hk, hfk⟩ := List.mem_filterMap.mp hd
      by_cases heq : isEqual (getKey entity k) (getKey r' k) = true
      · rw [if_pos heq] at hfk
        exact Option.noConfusion hfk
      · rw [if_neg heq] at hfk
        have hd' : d = ⟨k, getKey r' k, getKey entity k⟩ := (Option.some.inj hfk).symm
        subst hd'
        exact ⟨rfl, Bool.not_eq_true _ ▸ heq, hk⟩
  · exact ⟨[("id", Value.vstr "x")], [], rfl⟩

/-- C9 witness: the safety statement at the concrete prod_1 pair, the
remote list containing a matching entity. -/
theorem C9_witness :
    (∃ ds, getEntityDifferences wLocalProduct [wRemoteProduct] = Except.ok ds
      ∧ ∀ d ∈ ds, d.toVal = getKey wLocalProduct d.key
          ∧ isEqual d.toVal d.fromVal = false
          ∧ d.key ∈ keys wLocalProduct)
    ∧ (∃ (e' : Entity) (rs' : List Entity),
        getEntityDifferences e' rs' =
          Except.error "TypeError: cannot read properties of undefined") :=
  C9_entity_differences_safety wLocalProduct [wRemoteProduct]
    ⟨wRemoteProduct, List.mem_singleton.mpr rfl, rfl⟩

/-- C10: for a remote entity whose last-matching local counterpart
exists, a local counterpart lacking the `active` key entirely - or
holding any falsy value in it - puts the remote entity in the removed
bucket; staying out of the removed bucket requires the counterpart to
hold a truthy `active` value. -/
theorem C10_falsy_active_deactivates
    (localEntries remoteEntries : List Entity) (r l : Entity)
    (hr : r ∈ remoteEntries)
    (hm : lastMatch localEntries (getKey r "id") = some l) :
    ((∀ p ∈ l, p.1 ≠ "active") → r ∈ getDeactivatedEntries localEntries remoteEntries)
    ∧ (truthy (getKey l "active") = false →
        r ∈ getDeactivatedEntries localEntries remoteEntries)
    ∧ (r ∉ getDeactivatedEntries localEntries remoteEntries →
        truthy (getKey l "active") = true) := by
  have hfalsy : truthy (getKey l "active") = false →
      r ∈ getDeactivatedEntries localEntries remoteEntries := by
    intro hact
    rw [getDeactivatedEntries, List.mem_filter]
    refine ⟨hr, ?_⟩
    rw [hm]
    simp [hact]
  refine ⟨?_, hfalsy, ?_⟩
  · intro hnokey
    apply hfalsy
    have hfind : l.find? (fun p => p.1 == "active") = none := by
      rw [List.find?_eq_none]
      intro p hp
      simp [hnokey p hp]
    rw [getKey, hfind]
    rfl
  · intro hnot
    by_cases hact : truthy (getKey l "active") = true
    · exact hact
    · exact absurd (hfalsy (Bool.not_eq_true _ ▸ hact)) hnot

/-- C10 witness: the falsy-active statement at the concrete prod_1
pair whose local counterpart has active false. -/
theorem C10_witness :
    ((∀ p ∈ wLocalProduct, p.1 ≠ "active") →
        wRemoteProduct ∈ getDeactivatedEntries [wLocalProduct] [wRemoteProduct])
    ∧ (truthy (getKey wLocalProduct "active") = false →
        wRemoteProduct ∈ getDeactivatedEntries [wLocalProduct] [wRemoteProduct])
    ∧ (wRemoteProduct ∉ getDeactivatedEntries [wLocalProduct] [wRemoteProduct] →
        truthy (getKey wLocalProduct "active") = true) :=
  C10_falsy_active_deactivates [wLocalProduct] [wRemoteProduct] wRemoteProduct wLocalProduct
    (List.mem_singleton.mpr rfl) rfl

end Nodewood
